import Mathlib

/-!
# Verification of the chess socket server core

A shallow embedding of `src/server/socketServer.js`: the `Game` class
(board, clocks, side to move, move log, status), the socket event handlers
(`makeMove`, `resign`, `acceptDraw`, the matchmaking `findMatch` handler,
the disconnect timeout callback) and the periodic ticker pass.

JavaScript numbers used for clocks and coordinates are modelled as `Int`
(all arithmetic in the source is integer-valued); in-place mutation of the
`Game` object is modelled by returning an updated copy; the `games` `Map`
is modelled as an association list keyed by the game id; socket emissions
are modelled as an explicit list of `Emission` values recording the scope
(single caller, game room, everyone) and the event payload.
-/

namespace ChessServer

/-- The two sides, the values of `currentPlayer` in the source
(strings `'white'` / `'black'`). -/
inductive Color where
  | white
  | black
deriving DecidableEq, Repr

/-- The status strings the server ever assigns
(`'playing'`, `'draw'`, `'resigned'`, `'time_out'`, `'disconnected'`). -/
inductive Status where
  | playing
  | draw
  | resigned
  | time_out
  | disconnected
deriving DecidableEq, Repr

/-- A registered player: socket id, display name, rating
(the `socket` field of the source object is the transport handle and is
modelled by the emission scopes instead). -/
structure Player where
  id : String
  name : String
  rating : Int
deriving DecidableEq, Repr

/-- The 8×8 board: a list of rows, each a list of optional piece symbols. -/
abbrev Board := List (List (Option Char))

/-- A recorded move, as pushed onto `this.moves`. -/
structure Move where
  fromSq : Int × Int
  toSq : Int × Int
  piece : Char
  captured : Option Char
  timestamp : Int
  player : Color
deriving DecidableEq, Repr

/-- The `Game` class state. -/
structure Game where
  id : String
  white : Player
  black : Player
  board : Board
  currentPlayer : Color
  moves : List Move
  status : Status
  whiteTime : Int
  blackTime : Int
  lastMoveTime : Int
  spectators : List String
deriving DecidableEq, Repr

/-- `getInitialBoard()`. -/
def getInitialBoard : Board :=
  [ [some '♜', some '♞', some '♝', some '♛', some '♚', some '♝', some '♞', some '♜'],
    [some '♟', some '♟', some '♟', some '♟', some '♟', some '♟', some '♟', some '♟'],
    [none, none, none, none, none, none, none, none],
    [none, none, none, none, none, none, none, none],
    [none, none, none, none, none, none, none, none],
    [none, none, none, none, none, none, none, none],
    [some '♙', some '♙', some '♙', some '♙', some '♙', some '♙', some '♙', some '♙'],
    [some '♖', some '♘', some '♗', some '♕', some '♔', some '♗', some '♘', some '♖'] ]

/-- The `Game` constructor: status `playing`, white to move, 15 minutes
(in ms) on each clock, empty move log and spectator set. -/
def newGame (id : String) (white black : Player) (now : Int) : Game :=
  { id := id
    white := white
    black := black
    board := getInitialBoard
    currentPlayer := Color.white
    moves := []
    status := Status.playing
    whiteTime := 15 * 60 * 1000
    blackTime := 15 * 60 * 1000
    lastMoveTime := now
    spectators := [] }

/-- Read `board[r][c]` (only used at in-bounds coordinates in the source). -/
def boardGet (b : Board) (r c : Int) : Option Char :=
  (b.getD r.toNat []).getD c.toNat none

/-- Write `board[r][c] = v`. -/
def boardSet (b : Board) (r c : Int) (v : Option Char) : Board :=
  b.set r.toNat ((b.getD r.toNat []).set c.toNat v)

/-- The white piece symbols `'♔♕♖♗♘♙'`. -/
def isWhitePiece (p : Char) : Prop :=
  p = '♔' ∨ p = '♕' ∨ p = '♖' ∨ p = '♗' ∨ p = '♘' ∨ p = '♙'

/-- The black piece symbols `'♚♛♜♝♞♟'`. -/
def isBlackPiece (p : Char) : Prop :=
  p = '♚' ∨ p = '♛' ∨ p = '♜' ∨ p = '♝' ∨ p = '♞' ∨ p = '♟'

instance (p : Char) : Decidable (isWhitePiece p) := by
  unfold isWhitePiece; infer_instance

instance (p : Char) : Decidable (isBlackPiece p) := by
  unfold isBlackPiece; infer_instance

/-- The move record pushed onto `this.moves` by an accepted move (lines
89–98 of the source): origin, destination, moved piece, captured
occupant of the destination, timestamp, and the side that moved. -/
def recordedMove (g : Game) (fromRow fromCol toRow toCol : Int) (piece : Char)
    (now : Int) : Move :=
  { fromSq := (fromRow, fromCol)
    toSq := (toRow, toCol)
    piece := piece
    captured := boardGet g.board toRow toCol
    timestamp := now
    player := g.currentPlayer }

/-- The mutation block of an accepted `makeMove` (source lines 71–101):
debit the elapsed time to the side to move (no flooring), reset the
checkpoint, move the piece (destination overwritten, origin cleared),
append the move record, flip the side to move. -/
def appliedMove (g : Game) (fromRow fromCol toRow toCol : Int) (piece : Char)
    (now : Int) : Game :=
  { g with
    whiteTime := if g.currentPlayer = Color.white
      then g.whiteTime - (now - g.lastMoveTime) else g.whiteTime
    blackTime := if g.currentPlayer = Color.white
      then g.blackTime else g.blackTime - (now - g.lastMoveTime)
    lastMoveTime := now
    board := boardSet (boardSet g.board toRow toCol (some piece))
      fromRow fromCol none
    moves := g.moves ++ [recordedMove g fromRow fromCol toRow toCol piece now]
    currentPlayer := if g.currentPlayer = Color.white
      then Color.black else Color.white }

/-- `Game.makeMove(fromRow, fromCol, toRow, toCol, playerId)`, with the
wall-clock reading `Date.now()` passed in as `now`.  Returns the recorded
move (`none` for the `return false` paths) together with the post-call
game state.  The validation chain is exactly the source's: competitor
check, turn check, bounds check, non-empty origin, origin-piece ownership
— there is no check of the destination square's occupant and no check of
`this.status`. -/
def makeMove (g : Game) (fromRow fromCol toRow toCol : Int) (playerId : String)
    (now : Int) : Option Move × Game :=
  if ¬(g.white.id = playerId) ∧ ¬(g.black.id = playerId) then (none, g)
  else if (g.currentPlayer = Color.white ∧ ¬(g.white.id = playerId)) ∨
          (g.currentPlayer = Color.black ∧ ¬(g.black.id = playerId)) then (none, g)
  else if fromRow < 0 ∨ fromRow > 7 ∨ fromCol < 0 ∨ fromCol > 7 ∨
          toRow < 0 ∨ toRow > 7 ∨ toCol < 0 ∨ toCol > 7 then (none, g)
  else
    match boardGet g.board fromRow fromCol with
    | none => (none, g)
    | some piece =>
      if (g.currentPlayer = Color.white ∧ ¬isWhitePiece piece) ∨
         (g.currentPlayer = Color.black ∧ ¬isBlackPiece piece) then (none, g)
      else
        (some (recordedMove g fromRow fromCol toRow toCol piece now),
         appliedMove g fromRow fromCol toRow toCol piece now)

/-- The competitor whose turn it is. -/
def sideToMovePlayer (g : Game) : Player :=
  if g.currentPlayer = Color.white then g.white else g.black

/-- Ownership of a piece symbol by a side. -/
def belongsTo : Color → Char → Prop
  | Color.white, p => isWhitePiece p
  | Color.black, p => isBlackPiece p

instance (c : Color) (p : Char) : Decidable (belongsTo c p) := by
  cases c <;> (unfold belongsTo; infer_instance)

/-- All four coordinates inside `[0,7]`. -/
def inBoundsMove (fromRow fromCol toRow toCol : Int) : Prop :=
  0 ≤ fromRow ∧ fromRow ≤ 7 ∧ 0 ≤ fromCol ∧ fromCol ≤ 7 ∧
  0 ≤ toRow ∧ toRow ≤ 7 ∧ 0 ≤ toCol ∧ toCol ≤ 7

/-- The exact acceptance condition of `Game.makeMove`: the requester is
the competitor currently to move, the coordinates are in bounds, and the
origin square holds a piece of the side to move.  (The destination
square is not examined.) -/
def moveAccepted (g : Game) (fromRow fromCol toRow toCol : Int)
    (pid : String) : Prop :=
  (sideToMovePlayer g).id = pid ∧ inBoundsMove fromRow fromCol toRow toCol ∧
  ∃ piece, boardGet g.board fromRow fromCol = some piece ∧
    belongsTo g.currentPlayer piece

/-- The turn flip performed on acceptance. -/
def flipColor : Color → Color
  | Color.white => Color.black
  | Color.black => Color.white

/-- The recipient scope of a `socket.emit` / `io.to(gameId).emit` /
`io.emit` call. -/
inductive Scope where
  | toCaller (socketId : String)
  | toRoom (gameId : String)
  | toAll
deriving DecidableEq, Repr

/-- The outbound events the modelled handlers send.  `gameEnded` records
the result string and the status the game carries in the broadcast
snapshot; `timeUpdate` records both remaining times. -/
inductive EventKind where
  | moveError
  | moveMade
  | gameEnded (result : String) (statusInSnapshot : Status)
  | timeUpdate (whiteTime blackTime : Int)
  | playerDisconnected
  | waitingForMatch (position : Nat)
  | gameFound (gameId : String) (color : Color)
  | gameCreated (gameId : String)
deriving DecidableEq, Repr

/-- One `emit` call: a scope and an event. -/
structure Emission where
  scope : Scope
  event : EventKind
deriving DecidableEq, Repr

/-- The `games` map: an association list from game id to game state. -/
abbrev GamesMap := List (String × Game)

/-- `games.get(gameId)`. -/
def lookupGame : GamesMap → String → Option Game
  | [], _ => none
  | (k, g) :: rest, gid => if k = gid then some g else lookupGame rest gid

/-- Replace the entry for `gid` (models in-place mutation of the stored
`Game` object). -/
def updateGame : GamesMap → String → Game → GamesMap
  | [], _, _ => []
  | (k, g) :: rest, gid, g' =>
      if k = gid then (k, g') :: rest else (k, g) :: updateGame rest gid g'

/-- `games.delete(gameId)`. -/
def removeGame : GamesMap → String → GamesMap
  | [], _ => []
  | (k, g) :: rest, gid =>
      if k = gid then rest else (k, g) :: removeGame rest gid

/-- The `players` map: socket id to player record. -/
abbrev PlayersMap := List (String × Player)

/-- `players.get(socketId)`. -/
def lookupPlayer : PlayersMap → String → Option Player
  | [], _ => none
  | (k, p) :: rest, sid => if k = sid then some p else lookupPlayer rest sid

/-- The `socket.on('makeMove', ...)` handler: resolve the game and the
player, run `game.makeMove`, emit `moveError` to the caller on failure,
otherwise broadcast `moveMade` to the room and run the immediate
time-forfeit check. -/
def handleMakeMove (games : GamesMap) (players : PlayersMap)
    (socketId gameId : String) (fromRow fromCol toRow toCol : Int)
    (now : Int) : GamesMap × List Emission :=
  match lookupGame games gameId, lookupPlayer players socketId with
  | some game, some _player =>
      let res := makeMove game fromRow fromCol toRow toCol socketId now
      match res.1 with
      | none =>
          (updateGame games gameId res.2,
           [⟨Scope.toCaller socketId, EventKind.moveError⟩])
      | some _mv =>
          let g1 := res.2
          if g1.whiteTime ≤ 0 then
            let g2 := { g1 with status := Status.time_out }
            (updateGame games gameId g2,
             [⟨Scope.toRoom gameId, EventKind.moveMade⟩,
              ⟨Scope.toRoom gameId, EventKind.gameEnded "black_wins" g2.status⟩])
          else if g1.blackTime ≤ 0 then
            let g2 := { g1 with status := Status.time_out }
            (updateGame games gameId g2,
             [⟨Scope.toRoom gameId, EventKind.moveMade⟩,
              ⟨Scope.toRoom gameId, EventKind.gameEnded "white_wins" g2.status⟩])
          else
            (updateGame games gameId g1,
             [⟨Scope.toRoom gameId, EventKind.moveMade⟩])
  | _, _ => (games, [⟨Scope.toCaller socketId, EventKind.moveError⟩])

/-- The `socket.on('resign', ...)` handler: requires the game and the
player to exist and the caller to be one of the two competitors; sets
status `resigned` and broadcasts `gameEnded` to the room.  No check of
the current status. -/
def handleResign (games : GamesMap) (players : PlayersMap)
    (socketId gameId : String) : GamesMap × List Emission :=
  match lookupGame games gameId, lookupPlayer players socketId with
  | some game, some _player =>
      if ¬(game.white.id = socketId) ∧ ¬(game.black.id = socketId) then
        (games, [])
      else
        let g1 := { game with status := Status.resigned }
        (updateGame games gameId g1,
         [⟨Scope.toRoom gameId,
           EventKind.gameEnded
             (if game.white.id = socketId then "black_wins" else "white_wins")
             g1.status⟩])
  | _, _ => (games, [])

/-- The `socket.on('acceptDraw', ...)` handler: looks up only the game —
the caller's identity and the current status are never examined — sets
status `draw` and broadcasts `gameEnded('draw')` to the room. -/
def handleAcceptDraw (games : GamesMap) (_socketId gameId : String) :
    GamesMap × List Emission :=
  match lookupGame games gameId with
  | none => (games, [])
  | some game =>
      let g1 := { game with status := Status.draw }
      (updateGame games gameId g1,
       [⟨Scope.toRoom gameId, EventKind.gameEnded "draw" g1.status⟩])

/-- The body of the `setTimeout` scheduled in the `disconnect` handler,
fired 30000 ms after the disconnection of `socketId` from `gameId`: if
the game id is still in the registry (the only check made), set status
`disconnected`, broadcast `gameEnded` with the other side as winner, and
delete the game. -/
def fireDisconnectTimeout (games : GamesMap) (gameId socketId : String) :
    GamesMap × List Emission :=
  match lookupGame games gameId with
  | none => (games, [])
  | some game =>
      let winner := if game.white.id = socketId then "black_wins" else "white_wins"
      let g1 := { game with status := Status.disconnected }
      (removeGame (updateGame games gameId g1) gameId,
       [⟨Scope.toRoom gameId, EventKind.gameEnded winner g1.status⟩])

/-- One ticker pass over a single game (the body of the `setInterval`
loop for one `games` entry): for a `playing` game, checkpoint the active
side's clock with `Math.max(0, ...)` flooring, then either end the game
on time or broadcast a `timeUpdate`. -/
def tickGame (g : Game) (now : Int) : Game × List Emission :=
  if g.status = Status.playing then
    let timeDiff := now - g.lastMoveTime
    let g1 := if g.currentPlayer = Color.white
      then { g with whiteTime := max 0 (g.whiteTime - timeDiff), lastMoveTime := now }
      else { g with blackTime := max 0 (g.blackTime - timeDiff), lastMoveTime := now }
    if g1.whiteTime ≤ 0 ∨ g1.blackTime ≤ 0 then
      let winner := if g1.whiteTime ≤ 0 then "black_wins" else "white_wins"
      let g2 := { g1 with status := Status.time_out }
      (g2, [⟨Scope.toRoom g.id, EventKind.gameEnded winner g2.status⟩])
    else
      (g1, [⟨Scope.toRoom g.id, EventKind.timeUpdate g1.whiteTime g1.blackTime⟩])
  else (g, [])

/-- JavaScript `Array.prototype.findIndex`: the least index satisfying
the predicate. -/
def findIndexJS (p : α → Prop) [DecidablePred p] : List α → Option Nat
  | [] => none
  | a :: rest =>
      if p a then some 0
      else (findIndexJS p rest).map (· + 1)

/-- Lines 186–189: drop the caller's own ticket from the waiting list if
present (`findIndex` + `splice`). -/
def removeOwnTicket (waiting : List Player) (pid : String) : List Player :=
  match findIndexJS (fun p => p.id = pid) waiting with
  | some i => waiting.eraseIdx i
  | none => waiting

/-- `preferences.ratingRange || 200`: the default 200 applies when the
field is absent — or `0`, which is falsy in JavaScript. -/
def effectiveRatingRange (prefsRange : Option Int) : Int :=
  match prefsRange with
  | some r => if r = 0 then 200 else r
  | none => 200

/-- The `socket.on('findMatch', ...)` handler, given the already-resolved
caller `player`, the effective rating range, the id for a new game and the
color coin flip (`Math.random() > 0.5`): remove any existing ticket of the
caller, scan the queue front-to-back for the first rating-compatible
ticket; on a hit remove it and create the game, otherwise append a
ticket. -/
def findMatch (waiting : List Player) (player : Player) (ratingRange : Int)
    (coinWhite : Bool) (newId : String) (now : Int) :
    List Player × Option Game × List Emission :=
  let w1 := removeOwnTicket waiting player.id
  match findIndexJS (fun q => |q.rating - player.rating| ≤ ratingRange) w1 with
  | some i =>
      let opponent := w1.getD i player
      let w2 := w1.eraseIdx i
      let wh := if coinWhite then player else opponent
      let bl := if coinWhite then opponent else player
      let game := newGame newId wh bl now
      (w2, some game,
       [⟨Scope.toCaller wh.id, EventKind.gameFound newId Color.white⟩,
        ⟨Scope.toCaller bl.id, EventKind.gameFound newId Color.black⟩,
        ⟨Scope.toAll, EventKind.gameCreated newId⟩])
  | none =>
      (w1 ++ [player], none,
       [⟨Scope.toCaller player.id, EventKind.waitingForMatch (w1.length + 1)⟩])

/-- One `makeMove` request as received over the wire: coordinates, the
requesting socket id, and the wall clock at arrival. -/
structure MoveReq where
  fromRow : Int
  fromCol : Int
  toRow : Int
  toCol : Int
  playerId : String
  now : Int
deriving DecidableEq, Repr

/-- Run a list of move requests through `Game.makeMove` in order,
returning the final game state and the number of accepted moves. -/
def applyMoves (g : Game) : List MoveReq → Game × Nat
  | [] => (g, 0)
  | r :: rest =>
      ((applyMoves (makeMove g r.fromRow r.fromCol r.toRow r.toCol
          r.playerId r.now).2 rest).1,
       (if (makeMove g r.fromRow r.fromCol r.toRow r.toCol
          r.playerId r.now).1.isSome then 1 else 0) +
         (applyMoves (makeMove g r.fromRow r.fromCol r.toRow r.toCol
            r.playerId r.now).2 rest).2)

/-- Concrete fixture: the white-side competitor. -/
def aliceP : Player := { id := "a", name := "Alice", rating := 1500 }

/-- Concrete fixture: the black-side competitor. -/
def bobP : Player := { id := "b", name := "Bob", rating := 1650 }

/-- Concrete fixture: a freshly created game between `aliceP` (white)
and `bobP` (black). -/
def baseGame : Game := newGame "g1" aliceP bobP 0

/-- Concrete fixture: the same game after reaching the terminal status
`resigned`. -/
def resignedGame : Game := { baseGame with status := Status.resigned }

/-- Concrete fixture: a playing game in which white has 1000 ms left. -/
def lowClockGame : Game := { baseGame with whiteTime := 1000 }

/-- Concrete fixture: a playing game in which white has 500 ms left. -/
def tickerGame : Game := { baseGame with whiteTime := 500 }

/-- Concrete fixture: the connection directory holding both competitors. -/
def playersMapAB : PlayersMap := [("a", aliceP), ("b", bobP)]

theorem sideToMove_cases (g : Game) (pid : String)
    (hpid : (sideToMovePlayer g).id = pid) :
    (g.currentPlayer = Color.white ∧ g.white.id = pid) ∨
      (g.currentPlayer = Color.black ∧ g.black.id = pid) := by
  cases hc : g.currentPlayer <;>
    simp [sideToMovePlayer, hc] at hpid <;> simp [hc, hpid]

theorem makeMove_eq_of_accepted (g : Game) (fromRow fromCol toRow toCol : Int)
    (pid : String) (now : Int) (piece : Char)
    (hpid : (sideToMovePlayer g).id = pid)
    (hb : inBoundsMove fromRow fromCol toRow toCol)
    (hp : boardGet g.board fromRow fromCol = some piece)
    (hbel : belongsTo g.currentPlayer piece) :
    makeMove g fromRow fromCol toRow toCol pid now =
      (some (recordedMove g fromRow fromCol toRow toCol piece now),
       appliedMove g fromRow fromCol toRow toCol piece now) := by
  obtain ⟨h1, h2, h3, h4, h5, h6, h7, h8⟩ := hb
  have hmain := sideToMove_cases g pid hpid
  have hn1 : ¬(¬(g.white.id = pid) ∧ ¬(g.black.id = pid)) := by tauto
  have hn2 : ¬((g.currentPlayer = Color.white ∧ ¬(g.white.id = pid)) ∨
      (g.currentPlayer = Color.black ∧ ¬(g.black.id = pid))) := by
    rcases hmain with ⟨hc, hx⟩ | ⟨hc, hx⟩ <;> simp [hc, hx]
  have hn3 : ¬(fromRow < 0 ∨ fromRow > 7 ∨ fromCol < 0 ∨ fromCol > 7 ∨
      toRow < 0 ∨ toRow > 7 ∨ toCol < 0 ∨ toCol > 7) := by omega
  have hn4 : ¬((g.currentPlayer = Color.white ∧ ¬isWhitePiece piece) ∨
      (g.currentPlayer = Color.black ∧ ¬isBlackPiece piece)) := by
    cases hc : g.currentPlayer <;> rw [hc] at hbel <;>
      simp [belongsTo] at hbel <;> simp [hc, hbel]
  unfold makeMove
  rw [if_neg hn1, if_neg hn2, if_neg hn3]
  split
  · rename_i heq
    rw [hp] at heq
    cases heq
  · rename_i p heq
    rw [hp] at heq
    injection heq with heq'
    subst heq'
    rw [if_neg hn4]

theorem makeMove_eq_of_rejected (g : Game) (fromRow fromCol toRow toCol : Int)
    (pid : String) (now : Int)
    (hn : ¬ moveAccepted g fromRow fromCol toRow toCol pid) :
    makeMove g fromRow fromCol toRow toCol pid now = (none, g) := by
  unfold makeMove
  split
  · rfl
  split
  · rfl
  split
  · rfl
  split
  · rfl
  split
  · rfl
  · exfalso
    rename_i hno1 hturn hbounds xscrut piece hpiece hown
    apply hn
    refine ⟨?_, ?_, piece, hpiece, ?_⟩
    · cases hc : g.currentPlayer <;> rw [hc] at hturn <;> simp at hturn <;>
        simp [sideToMovePlayer, hc, hturn]
    · unfold inBoundsMove
      omega
    · cases hc : g.currentPlayer <;> rw [hc] at hown <;> simp at hown <;>
        simp [belongsTo, hown]

theorem moveAccepted_of_isSome (g : Game) (fromRow fromCol toRow toCol : Int)
    (pid : String) (now : Int)
    (h : (makeMove g fromRow fromCol toRow toCol pid now).1.isSome = true) :
    moveAccepted g fromRow fromCol toRow toCol pid := by
  by_contra hn
  rw [makeMove_eq_of_rejected g fromRow fromCol toRow toCol pid now hn] at h
  simp at h

theorem makeMove_none_snd (g : Game) (fromRow fromCol toRow toCol : Int)
    (pid : String) (now : Int)
    (h : (makeMove g fromRow fromCol toRow toCol pid now).1 = none) :
    (makeMove g fromRow fromCol toRow toCol pid now).2 = g := by
  by_cases hacc : moveAccepted g fromRow fromCol toRow toCol pid
  · obtain ⟨hpid, hb, piece, hp, hbel⟩ := hacc
    rw [makeMove_eq_of_accepted g fromRow fromCol toRow toCol pid now piece
      hpid hb hp hbel] at h
    simp at h
  · rw [makeMove_eq_of_rejected g fromRow fromCol toRow toCol pid now hacc]

theorem flipColor_flip (c : Color) : flipColor (flipColor c) = c := by
  cases c <;> rfl

theorem makeMove_currentPlayer (g : Game) (fromRow fromCol toRow toCol : Int)
    (pid : String) (now : Int) :
    (makeMove g fromRow fromCol toRow toCol pid now).2.currentPlayer =
      if (makeMove g fromRow fromCol toRow toCol pid now).1.isSome = true
      then flipColor g.currentPlayer else g.currentPlayer := by
  by_cases hacc : moveAccepted g fromRow fromCol toRow toCol pid
  · obtain ⟨hpid, hb, piece, hp, hbel⟩ := hacc
    rw [makeMove_eq_of_accepted g fromRow fromCol toRow toCol pid now piece
      hpid hb hp hbel]
    cases hc : g.currentPlayer <;> simp [appliedMove, flipColor, hc]
  · rw [makeMove_eq_of_rejected g fromRow fromCol toRow toCol pid now hacc]
    simp

theorem makeMove_status (g : Game) (fromRow fromCol toRow toCol : Int)
    (pid : String) (now : Int) :
    (makeMove g fromRow fromCol toRow toCol pid now).2.status = g.status := by
  by_cases hacc : moveAccepted g fromRow fromCol toRow toCol pid
  · obtain ⟨hpid, hb, piece, hp, hbel⟩ := hacc
    rw [makeMove_eq_of_accepted g fromRow fromCol toRow toCol pid now piece
      hpid hb hp hbel]
    simp [appliedMove]
  · rw [makeMove_eq_of_rejected g fromRow fromCol toRow toCol pid now hacc]

theorem updateGame_self (games : GamesMap) (gid : String) (g : Game)
    (h : lookupGame games gid = some g) : updateGame games gid g = games := by
  induction games with
  | nil => rfl
  | cons kv rest ih =>
      obtain ⟨k, v⟩ := kv
      by_cases hk : k = gid
      · unfold lookupGame at h
        rw [if_pos hk] at h
        injection h with h'
        subst h'
        unfold updateGame
        rw [if_pos hk]
      · unfold lookupGame at h
        rw [if_neg hk] at h
        unfold updateGame
        rw [if_neg hk, ih h]

theorem lookupGame_update (games : GamesMap) (gid : String) (g g' : Game)
    (h : lookupGame games gid = some g) :
    lookupGame (updateGame games gid g') gid = some g' := by
  induction games with
  | nil => simp [lookupGame] at h
  | cons kv rest ih =>
      obtain ⟨k, v⟩ := kv
      by_cases hk : k = gid
      · unfold updateGame
        rw [if_pos hk]
        unfold lookupGame
        rw [if_pos hk]
      · unfold lookupGame at h
        rw [if_neg hk] at h
        unfold updateGame
        rw [if_neg hk]
        unfold lookupGame
        rw [if_neg hk]
        exact ih h

theorem findIndexJS_some_lt {α : Type} (p : α → Prop) [DecidablePred p]
    (l : List α) (i : Nat) (h : findIndexJS p l = some i) : i < l.length := by
  induction l generalizing i with
  | nil => simp [findIndexJS] at h
  | cons a rest ih =>
      unfold findIndexJS at h
      by_cases hp : p a
      · rw [if_pos hp] at h
        injection h with h'
        subst h'
        simp
      · rw [if_neg hp] at h
        cases hfi : findIndexJS p rest with
        | none => rw [hfi] at h; simp at h
        | some i' =>
            rw [hfi] at h
            simp at h
            subst h
            have := ih i' hfi
            simp
            omega

theorem findIndexJS_some_sat {α : Type} (p : α → Prop) [DecidablePred p]
    (l : List α) (i : Nat) (d : α) (h : findIndexJS p l = some i) :
    p (l.getD i d) := by
  induction l generalizing i with
  | nil => simp [findIndexJS] at h
  | cons a rest ih =>
      unfold findIndexJS at h
      by_cases hp : p a
      · rw [if_pos hp] at h
        injection h with h'
        subst h'
        simpa using hp
      · rw [if_neg hp] at h
        cases hfi : findIndexJS p rest with
        | none => rw [hfi] at h; simp at h
        | some i' =>
            rw [hfi] at h
            simp at h
            subst h
            simpa using ih i' hfi

theorem findIndexJS_some_min {α : Type} (p : α → Prop) [DecidablePred p]
    (l : List α) (i : Nat) (d : α) (h : findIndexJS p l = some i) :
    ∀ j, j < i → ¬ p (l.getD j d) := by
  induction l generalizing i with
  | nil => simp [findIndexJS] at h
  | cons a rest ih =>
      unfold findIndexJS at h
      by_cases hp : p a
      · rw [if_pos hp] at h
        injection h with h'
        subst h'
        omega
      · rw [if_neg hp] at h
        cases hfi : findIndexJS p rest with
        | none => rw [hfi] at h; simp at h
        | some i' =>
            rw [hfi] at h
            simp at h
            subst h
            intro j hj
            cases j with
            | zero => simpa using hp
            | succ j' =>
                have := ih i' hfi j' (by omega)
                simpa using this

theorem findIndexJS_none {α : Type} (p : α → Prop) [DecidablePred p]
    (l : List α) (h : findIndexJS p l = none) : ∀ a ∈ l, ¬ p a := by
  induction l with
  | nil => simp
  | cons a rest ih =>
      unfold findIndexJS at h
      by_cases hp : p a
      · rw [if_pos hp] at h; simp at h
      · rw [if_neg hp] at h
        cases hfi : findIndexJS p rest with
        | none =>
            intro x hx
            rcases List.mem_cons.mp hx with hxa | hxr
            · subst hxa; exact hp
            · exact ih hfi x hxr
        | some i' => rw [hfi] at h; simp at h

theorem removeOwnTicket_clears (waiting : List Player) (pid : String)
    (hnd : List.Pairwise (fun a b => a.id ≠ b.id) waiting) :
    ∀ q ∈ removeOwnTicket waiting pid, q.id ≠ pid := by
  induction waiting with
  | nil => simp [removeOwnTicket, findIndexJS]
  | cons a rest ih =>
      rw [List.pairwise_cons] at hnd
      obtain ⟨ha, hrest⟩ := hnd
      by_cases hp : a.id = pid
      · have hfi2 : findIndexJS (fun p => p.id = pid) (a :: rest) = some 0 := by
          simp [findIndexJS, hp]
        unfold removeOwnTicket
        rw [hfi2]
        intro q hq heq
        have hq' : q ∈ rest := by simpa [List.eraseIdx] using hq
        exact ha q hq' (by rw [hp, heq])
      · cases hfi : findIndexJS (fun p => p.id = pid) rest with
        | none =>
            have hfi2 : findIndexJS (fun p => p.id = pid) (a :: rest) = none := by
              simp [findIndexJS, hp, hfi]
            unfold removeOwnTicket
            rw [hfi2]
            intro q hq
            rcases List.mem_cons.mp hq with hqa | hqr
            · subst hqa; exact hp
            · exact findIndexJS_none _ rest hfi q hqr
        | some i =>
            have hfi2 : findIndexJS (fun p => p.id = pid) (a :: rest) =
                some (i + 1) := by
              simp [findIndexJS, hp, hfi]
            unfold removeOwnTicket
            rw [hfi2]
            have hih := ih hrest
            unfold removeOwnTicket at hih
            rw [hfi] at hih
            intro q hq
            have hmem : q ∈ a :: rest.eraseIdx i := by
              simpa [List.eraseIdx] using hq
            rcases List.mem_cons.mp hmem with hqa | hqr
            · subst hqa; exact hp
            · exact hih q hqr

theorem applyMoves_parity (reqs : List MoveReq) (g : Game) :
    (applyMoves g reqs).1.currentPlayer =
      if (applyMoves g reqs).2 % 2 = 0 then g.currentPlayer
      else flipColor g.currentPlayer := by
  induction reqs generalizing g with
  | nil => simp [applyMoves]
  | cons r rest ih =>
      unfold applyMoves
      dsimp only
      have hcp := makeMove_currentPlayer g r.fromRow r.fromCol r.toRow r.toCol
        r.playerId r.now
      rw [ih ((makeMove g r.fromRow r.fromCol r.toRow r.toCol
        r.playerId r.now).2), hcp]
      by_cases h : (makeMove g r.fromRow r.fromCol r.toRow r.toCol
          r.playerId r.now).1.isSome = true
      · rw [if_pos h]
        simp only [h, if_true]
        by_cases hpar : (applyMoves (makeMove g r.fromRow r.fromCol r.toRow
            r.toCol r.playerId r.now).2 rest).2 % 2 = 0
        · rw [if_pos hpar, if_neg (by omega)]
        · rw [if_neg hpar, if_pos (by omega), flipColor_flip]
      · rw [if_neg h]
        simp only [h, if_false]
        simp

theorem tickGame_playing_times (g : Game) (now : Int)
    (h : g.status = Status.playing) :
    (tickGame g now).1.whiteTime =
      (if g.currentPlayer = Color.white
       then max 0 (g.whiteTime - (now - g.lastMoveTime)) else g.whiteTime) ∧
    (tickGame g now).1.blackTime =
      (if g.currentPlayer = Color.white
       then g.blackTime else max 0 (g.blackTime - (now - g.lastMoveTime))) ∧
    (tickGame g now).1.lastMoveTime = now := by
  cases hc : g.currentPlayer <;> simp [tickGame, h, hc, apply_ite]

theorem tickGame_timeout_parts (g : Game) (now : Int)
    (h : g.status = Status.playing) :
    ((tickGame g now).1.whiteTime ≤ 0 →
       (tickGame g now).1.status = Status.time_out ∧
       (tickGame g now).2 = [⟨Scope.toRoom g.id,
         EventKind.gameEnded "black_wins" Status.time_out⟩]) ∧
    (0 < (tickGame g now).1.whiteTime → (tickGame g now).1.blackTime ≤ 0 →
       (tickGame g now).1.status = Status.time_out ∧
       (tickGame g now).2 = [⟨Scope.toRoom g.id,
         EventKind.gameEnded "white_wins" Status.time_out⟩]) ∧
    (0 < (tickGame g now).1.whiteTime → 0 < (tickGame g now).1.blackTime →
       (tickGame g now).1.status = Status.playing ∧
       (tickGame g now).2 = [⟨Scope.toRoom g.id,
         EventKind.timeUpdate (tickGame g now).1.whiteTime
           (tickGame g now).1.blackTime⟩]) := by
  cases hc : g.currentPlayer <;> simp [tickGame, h, hc, apply_ite] <;>
    refine ⟨fun h1 => ?_, fun h1 h2 => ?_, fun h1 h2 => ?_⟩
  case white.refine_1 =>
    constructor
    · omega
    · rw [if_pos (Or.inl h1), if_pos h1]
  case white.refine_2 =>
    constructor
    · omega
    · rw [if_pos (Or.inr h2), if_neg (by omega)]
  case white.refine_3 =>
    omega
  case black.refine_1 =>
    constructor
    · omega
    · rw [if_pos (Or.inl h1), if_pos h1]
  case black.refine_2 =>
    constructor
    · omega
    · rw [if_pos (Or.inr h2), if_neg (by omega)]
  case black.refine_3 =>
    omega

theorem handleMakeMove_rejected_unknown (games : GamesMap) (players : PlayersMap)
    (sid gid : String) (fromRow fromCol toRow toCol : Int) (now : Int)
    (h : lookupGame games gid = none ∨ lookupPlayer players sid = none) :
    handleMakeMove games players sid gid fromRow fromCol toRow toCol now =
      (games, [⟨Scope.toCaller sid, EventKind.moveError⟩]) := by
  unfold handleMakeMove
  rcases h with hg | hp
  · rw [hg]
  · cases hg : lookupGame games gid with
    | none => rfl
    | some game => rw [hp]

theorem handleMakeMove_rejected_invalid (games : GamesMap) (players : PlayersMap)
    (sid gid : String) (fromRow fromCol toRow toCol : Int) (now : Int)
    (game : Game) (hg : lookupGame games gid = some game)
    (hrej : (makeMove game fromRow fromCol toRow toCol sid now).1 = none) :
    handleMakeMove games players sid gid fromRow fromCol toRow toCol now =
      (games, [⟨Scope.toCaller sid, EventKind.moveError⟩]) := by
  unfold handleMakeMove
  rw [hg]
  cases hp : lookupPlayer players sid with
  | none => rfl
  | some p =>
      dsimp only
      rw [hrej, makeMove_none_snd game fromRow fromCol toRow toCol sid now hrej,
        updateGame_self games gid game hg]

theorem handleMakeMove_timeout_white (games : GamesMap) (players : PlayersMap)
    (sid gid : String) (fromRow fromCol toRow toCol : Int) (now : Int)
    (game : Game) (p : Player)
    (hg : lookupGame games gid = some game)
    (hp : lookupPlayer players sid = some p)
    (hacc : (makeMove game fromRow fromCol toRow toCol sid now).1.isSome = true)
    (hw : (makeMove game fromRow fromCol toRow toCol sid now).2.whiteTime ≤ 0) :
    handleMakeMove games players sid gid fromRow fromCol toRow toCol now =
      (updateGame games gid
        { (makeMove game fromRow fromCol toRow toCol sid now).2 with
          status := Status.time_out },
       [⟨Scope.toRoom gid, EventKind.moveMade⟩,
        ⟨Scope.toRoom gid, EventKind.gameEnded "black_wins" Status.time_out⟩]) := by
  unfold handleMakeMove
  rw [hg, hp]
  obtain ⟨mv, hmv⟩ := Option.isSome_iff_exists.mp hacc
  dsimp only
  rw [hmv]
  dsimp only
  rw [if_pos hw]

theorem handleMakeMove_timeout_black (games : GamesMap) (players : PlayersMap)
    (sid gid : String) (fromRow fromCol toRow toCol : Int) (now : Int)
    (game : Game) (p : Player)
    (hg : lookupGame games gid = some game)
    (hp : lookupPlayer players sid = some p)
    (hacc : (makeMove game fromRow fromCol toRow toCol sid now).1.isSome = true)
    (hw : 0 < (makeMove game fromRow fromCol toRow toCol sid now).2.whiteTime)
    (hb : (makeMove game fromRow fromCol toRow toCol sid now).2.blackTime ≤ 0) :
    handleMakeMove games players sid gid fromRow fromCol toRow toCol now =
      (updateGame games gid
        { (makeMove game fromRow fromCol toRow toCol sid now).2 with
          status := Status.time_out },
       [⟨Scope.toRoom gid, EventKind.moveMade⟩,
        ⟨Scope.toRoom gid, EventKind.gameEnded "white_wins" Status.time_out⟩]) := by
  unfold handleMakeMove
  rw [hg, hp]
  obtain ⟨mv, hmv⟩ := Option.isSome_iff_exists.mp hacc
  dsimp only
  rw [hmv]
  dsimp only
  rw [if_neg (by omega), if_pos hb]

theorem findMatch_spec_core (waiting : List Player) (player : Player)
    (range : Int) (coinWhite : Bool) (newId : String) (now : Int) :
    (∀ game, (findMatch waiting player range coinWhite newId now).2.1 = some game →
      ∃ i, i < (removeOwnTicket waiting player.id).length ∧
        |((removeOwnTicket waiting player.id).getD i player).rating -
          player.rating| ≤ range ∧
        (∀ j, j < i →
          ¬(|((removeOwnTicket waiting player.id).getD j player).rating -
            player.rating| ≤ range)) ∧
        (findMatch waiting player range coinWhite newId now).1 =
          (removeOwnTicket waiting player.id).eraseIdx i ∧
        game = newGame newId
          (if coinWhite then player
           else (removeOwnTicket waiting player.id).getD i player)
          (if coinWhite then (removeOwnTicket waiting player.id).getD i player
           else player) now ∧
        ((game.white = player ∧
            game.black = (removeOwnTicket waiting player.id).getD i player) ∨
         (game.white = (removeOwnTicket waiting player.id).getD i player ∧
            game.black = player))) ∧
    ((findMatch waiting player range coinWhite newId now).2.1 = none →
      (∀ q ∈ removeOwnTicket waiting player.id,
        ¬(|q.rating - player.rating| ≤ range)) ∧
      (findMatch waiting player range coinWhite newId now).1 =
        removeOwnTicket waiting player.id ++ [player]) := by
  unfold findMatch
  dsimp only
  cases hfi : findIndexJS (fun q => |q.rating - player.rating| ≤ range)
      (removeOwnTicket waiting player.id) with
  | some i =>
      dsimp only
      constructor
      · intro game hgame
        injection hgame with hgame'
        refine ⟨i, findIndexJS_some_lt _ _ i hfi, ?_, ?_, rfl, hgame'.symm, ?_⟩
        · have hs := findIndexJS_some_sat _ _ i player hfi
          simpa using hs
        · intro j hj
          have hm := findIndexJS_some_min _ _ i player hfi j hj
          simpa using hm
        · subst hgame'
          cases coinWhite <;> simp [newGame]
      · intro hnone
        simp at hnone
  | none =>
      dsimp only
      constructor
      · intro game hgame
        simp at hgame
      · intro _
        exact ⟨findIndexJS_none _ _ hfi, rfl⟩

/-- C1: the code does not freeze terminal sessions.  On a session whose
status is the terminal `resigned`, a well-formed `makeMove` request is
still accepted and mutates the board, the move log, the clock and the
side to move; and `acceptDraw` on the same terminal session overwrites
the status with `draw`.  This contradicts the claim that once terminal,
no `makeMove` mutates the session and the status never changes again. -/
theorem terminal_session_not_frozen :
    resignedGame.status = Status.resigned ∧
    (makeMove resignedGame 6 4 4 4 "a" 5000).1.isSome = true ∧
    (makeMove resignedGame 6 4 4 4 "a" 5000).2.board ≠ resignedGame.board ∧
    (makeMove resignedGame 6 4 4 4 "a" 5000).2.moves ≠ resignedGame.moves ∧
    (makeMove resignedGame 6 4 4 4 "a" 5000).2.whiteTime ≠
      resignedGame.whiteTime ∧
    (makeMove resignedGame 6 4 4 4 "a" 5000).2.currentPlayer ≠
      resignedGame.currentPlayer ∧
    lookupGame (handleAcceptDraw [("g1", resignedGame)] "b" "g1").1 "g1" =
      some { resignedGame with status := Status.draw } := by
  decide

/-- C2 counterexample: in the initial position with white to move, the
destination square (7,1) holds white's own knight, yet white's request
(7,0)→(7,1) is accepted — so "the destination square is not occupied by
a piece of that same side" is not part of the acceptance condition. -/
theorem own_capture_accepted :
    baseGame.currentPlayer = Color.white ∧
    boardGet baseGame.board 7 1 = some '♘' ∧
    isWhitePiece '♘' ∧
    (makeMove baseGame 7 0 7 1 "a" 0).1.isSome = true := by
  decide

/-- C2 (amended): a `makeMove` request is accepted iff the requester is
the competitor currently to move, all four coordinates are in `[0,7]`,
and the origin square holds a piece of the side to move.  The occupant
of the destination square is not examined (own pieces may be captured). -/
theorem makeMove_accepted_iff (g : Game) (fromRow fromCol toRow toCol : Int)
    (pid : String) (now : Int) :
    (makeMove g fromRow fromCol toRow toCol pid now).1.isSome = true ↔
      moveAccepted g fromRow fromCol toRow toCol pid := by
  constructor
  · exact moveAccepted_of_isSome g fromRow fromCol toRow toCol pid now
  · intro hacc
    obtain ⟨hpid, hb, piece, hp, hbel⟩ := hacc
    rw [makeMove_eq_of_accepted g fromRow fromCol toRow toCol pid now piece
      hpid hb hp hbel]
    rfl

/-- C3: the deferred disconnect transition checks only registry
membership, never the status.  Fired on a session that is still
registered but already terminal (`resigned`), it still overwrites the
status with `disconnected`, broadcasts a second gameEnded and removes
the session — contradicting the claim that it fires only when the
session is still `playing`. -/
theorem disconnect_timeout_overwrites_terminal :
    resignedGame.status = Status.resigned ∧
    resignedGame.status ≠ Status.playing ∧
    lookupGame [("g1", resignedGame)] "g1" = some resignedGame ∧
    fireDisconnectTimeout [("g1", resignedGame)] "g1" "a" =
      ([], [⟨Scope.toRoom "g1",
        EventKind.gameEnded "black_wins" Status.disconnected⟩]) := by
  decide

/-- C4: `resign` has no terminal-state guard.  The first resign by white
sets status `resigned` and broadcasts gameEnded; a second resign on the
now-terminal session broadcasts gameEnded again (and a second resign by
the opponent even broadcasts the opposite winner) — contradicting the
claim that the second call is a no-op with no re-broadcast. -/
theorem second_resign_rebroadcasts :
    (handleResign [("g1", baseGame)] playersMapAB "a" "g1").2 =
      [⟨Scope.toRoom "g1", EventKind.gameEnded "black_wins" Status.resigned⟩] ∧
    (handleResign [("g1", baseGame)] playersMapAB "a" "g1").1 =
      [("g1", resignedGame)] ∧
    (handleResign [("g1", resignedGame)] playersMapAB "a" "g1").2 =
      [⟨Scope.toRoom "g1", EventKind.gameEnded "black_wins" Status.resigned⟩] ∧
    (handleResign [("g1", resignedGame)] playersMapAB "b" "g1").2 =
      [⟨Scope.toRoom "g1", EventKind.gameEnded "white_wins" Status.resigned⟩] := by
  decide

/-- C5 counterexample: in the pre-move checkpoint the debit is not
floored at zero.  With 1000 ms left and a 5000 ms delta, white's
accepted move leaves `whiteTime = -4000 < 0`, contradicting "the
resulting remaining time is floored at zero (never negative)". -/
theorem move_checkpoint_goes_negative :
    lowClockGame.status = Status.playing ∧
    lowClockGame.whiteTime = 1000 ∧
    (makeMove lowClockGame 6 4 4 4 "a" 5000).1.isSome = true ∧
    (makeMove lowClockGame 6 4 4 4 "a" 5000).2.whiteTime = -4000 := by
  decide

/-- C5 (amended): at every clock checkpoint the side to move is debited
exactly the wall-clock delta since the last checkpoint and the other
side's remaining time is unchanged; the ticker checkpoint floors the
result at zero, but the pre-move checkpoint subtracts the full delta
without flooring, so the remaining time can become negative there. -/
theorem checkpoint_debit_spec (g : Game) (fromRow fromCol toRow toCol : Int)
    (pid : String) (now : Int) :
    ((makeMove g fromRow fromCol toRow toCol pid now).1.isSome = true →
       (makeMove g fromRow fromCol toRow toCol pid now).2.whiteTime =
         (if g.currentPlayer = Color.white
          then g.whiteTime - (now - g.lastMoveTime) else g.whiteTime) ∧
       (makeMove g fromRow fromCol toRow toCol pid now).2.blackTime =
         (if g.currentPlayer = Color.white
          then g.blackTime else g.blackTime - (now - g.lastMoveTime)) ∧
       (makeMove g fromRow fromCol toRow toCol pid now).2.lastMoveTime = now) ∧
    (g.status = Status.playing →
       (tickGame g now).1.whiteTime =
         (if g.currentPlayer = Color.white
          then max 0 (g.whiteTime - (now - g.lastMoveTime)) else g.whiteTime) ∧
       (tickGame g now).1.blackTime =
         (if g.currentPlayer = Color.white
          then g.blackTime else max 0 (g.blackTime - (now - g.lastMoveTime))) ∧
       (tickGame g now).1.lastMoveTime = now) := by
  constructor
  · intro h
    obtain ⟨hpid, hb, piece, hp, hbel⟩ :=
      moveAccepted_of_isSome g fromRow fromCol toRow toCol pid now h
    rw [makeMove_eq_of_accepted g fromRow fromCol toRow toCol pid now piece
      hpid hb hp hbel]
    simp [appliedMove]
  · exact tickGame_playing_times g now

/-- C5 witness: the move-path conclusion instantiated at the concrete
low-clock game. -/
theorem checkpoint_debit_spec_witness :
    (makeMove lowClockGame 6 4 4 4 "a" 5000).1.isSome = true ∧
    ((makeMove lowClockGame 6 4 4 4 "a" 5000).2.whiteTime =
       (if lowClockGame.currentPlayer = Color.white
        then lowClockGame.whiteTime - (5000 - lowClockGame.lastMoveTime)
        else lowClockGame.whiteTime) ∧
     (makeMove lowClockGame 6 4 4 4 "a" 5000).2.blackTime =
       (if lowClockGame.currentPlayer = Color.white
        then lowClockGame.blackTime
        else lowClockGame.blackTime - (5000 - lowClockGame.lastMoveTime)) ∧
     (makeMove lowClockGame 6 4 4 4 "a" 5000).2.lastMoveTime = 5000) :=
  ⟨by decide, (checkpoint_debit_spec lowClockGame 6 4 4 4 "a" 5000).1 (by decide)⟩

/-- C6: on a ticker pass over a `playing` session, if the post-checkpoint
white clock is ≤ 0 the session becomes `time_out` with black the winner
and a gameEnded event goes to the session room; if only the black clock
is ≤ 0, white wins; otherwise a timeUpdate event with both remaining
times goes to the room.  The same time-forfeit transition is performed
by the `makeMove` handler immediately after an accepted move. -/
theorem timeout_transition_spec (g : Game) (now : Int) (games : GamesMap)
    (players : PlayersMap) (sid gid : String)
    (fromRow fromCol toRow toCol : Int) (h : g.status = Status.playing) :
    ((tickGame g now).1.whiteTime ≤ 0 →
       (tickGame g now).1.status = Status.time_out ∧
       (tickGame g now).2 = [⟨Scope.toRoom g.id,
         EventKind.gameEnded "black_wins" Status.time_out⟩]) ∧
    (0 < (tickGame g now).1.whiteTime → (tickGame g now).1.blackTime ≤ 0 →
       (tickGame g now).1.status = Status.time_out ∧
       (tickGame g now).2 = [⟨Scope.toRoom g.id,
         EventKind.gameEnded "white_wins" Status.time_out⟩]) ∧
    (0 < (tickGame g now).1.whiteTime → 0 < (tickGame g now).1.blackTime →
       (tickGame g now).1.status = Status.playing ∧
       (tickGame g now).2 = [⟨Scope.toRoom g.id,
         EventKind.timeUpdate (tickGame g now).1.whiteTime
           (tickGame g now).1.blackTime⟩]) ∧
    (∀ game p, lookupGame games gid = some game →
       lookupPlayer players sid = some p →
       (makeMove game fromRow fromCol toRow toCol sid now).1.isSome = true →
       (makeMove game fromRow fromCol toRow toCol sid now).2.whiteTime ≤ 0 →
       handleMakeMove games players sid gid fromRow fromCol toRow toCol now =
         (updateGame games gid
           { (makeMove game fromRow fromCol toRow toCol sid now).2 with
             status := Status.time_out },
          [⟨Scope.toRoom gid, EventKind.moveMade⟩,
           ⟨Scope.toRoom gid, EventKind.gameEnded "black_wins" Status.time_out⟩])) ∧
    (∀ game p, lookupGame games gid = some game →
       lookupPlayer players sid = some p →
       (makeMove game fromRow fromCol toRow toCol sid now).1.isSome = true →
       0 < (makeMove game fromRow fromCol toRow toCol sid now).2.whiteTime →
       (makeMove game fromRow fromCol toRow toCol sid now).2.blackTime ≤ 0 →
       handleMakeMove games players sid gid fromRow fromCol toRow toCol now =
         (updateGame games gid
           { (makeMove game fromRow fromCol toRow toCol sid now).2 with
             status := Status.time_out },
          [⟨Scope.toRoom gid, EventKind.moveMade⟩,
           ⟨Scope.toRoom gid, EventKind.gameEnded "white_wins" Status.time_out⟩])) := by
  obtain ⟨t1, t2, t3⟩ := tickGame_timeout_parts g now h
  refine ⟨t1, t2, t3, ?_, ?_⟩
  · intro game p hg hp hacc hw
    exact handleMakeMove_timeout_white games players sid gid fromRow fromCol
      toRow toCol now game p hg hp hacc hw
  · intro game p hg hp hacc hw hb
    exact handleMakeMove_timeout_black games players sid gid fromRow fromCol
      toRow toCol now game p hg hp hacc hw hb

/-- C6 witness: the white-forfeit conclusion instantiated at a concrete
playing game with 500 ms left on white's clock, ticked 1000 ms later. -/
theorem timeout_transition_spec_witness :
    tickerGame.status = Status.playing ∧
    ((tickGame tickerGame 1000).1.whiteTime ≤ 0) ∧
    ((tickGame tickerGame 1000).1.status = Status.time_out ∧
     (tickGame tickerGame 1000).2 = [⟨Scope.toRoom tickerGame.id,
       EventKind.gameEnded "black_wins" Status.time_out⟩]) :=
  ⟨by decide, by decide,
   (timeout_transition_spec tickerGame 1000 [] [] "x" "gx" 0 0 0 0
     (by decide)).1 (by decide)⟩

/-- C7: enqueueing `player` first removes any ticket with the player's
identity (under the invariant that ticket identities are pairwise
distinct), then pairs the player with the earliest-enqueued ticket whose
rating differs by at most `ratingRange` (first fit in FIFO scan order —
every earlier ticket is out of range), removes that ticket, and creates
a session whose two sides are the two players (colors by the coin flip);
with no eligible ticket the player is appended; the effective rating
range defaults to 200 when none was supplied. -/
theorem findMatch_first_fit (waiting : List Player) (player : Player)
    (range : Int) (coinWhite : Bool) (newId : String) (now : Int)
    (hnd : List.Pairwise (fun a b => a.id ≠ b.id) waiting) :
    effectiveRatingRange none = 200 ∧
    (∀ q ∈ removeOwnTicket waiting player.id, q.id ≠ player.id) ∧
    (∀ game, (findMatch waiting player range coinWhite newId now).2.1 = some game →
      ∃ i, i < (removeOwnTicket waiting player.id).length ∧
        |((removeOwnTicket waiting player.id).getD i player).rating -
          player.rating| ≤ range ∧
        (∀ j, j < i →
          ¬(|((removeOwnTicket waiting player.id).getD j player).rating -
            player.rating| ≤ range)) ∧
        (findMatch waiting player range coinWhite newId now).1 =
          (removeOwnTicket waiting player.id).eraseIdx i ∧
        game = newGame newId
          (if coinWhite then player
           else (removeOwnTicket waiting player.id).getD i player)
          (if coinWhite then (removeOwnTicket waiting player.id).getD i player
           else player) now ∧
        ((game.white = player ∧
            game.black = (removeOwnTicket waiting player.id).getD i player) ∨
         (game.white = (removeOwnTicket waiting player.id).getD i player ∧
            game.black = player))) ∧
    ((findMatch waiting player range coinWhite newId now).2.1 = none →
      (∀ q ∈ removeOwnTicket waiting player.id,
        ¬(|q.rating - player.rating| ≤ range)) ∧
      (findMatch waiting player range coinWhite newId now).1 =
        removeOwnTicket waiting player.id ++ [player]) := by
  refine ⟨rfl, removeOwnTicket_clears waiting player.id hnd, ?_, ?_⟩
  · exact (findMatch_spec_core waiting player range coinWhite newId now).1
  · exact (findMatch_spec_core waiting player range coinWhite newId now).2

/-- C7 witness: Alice (1500) waits; Bob (1650) enqueues with range 200
and is matched to her at once. -/
theorem findMatch_first_fit_witness :
    List.Pairwise (fun a b => a.id ≠ b.id) [aliceP] ∧
    (effectiveRatingRange none = 200 ∧
     (∀ q ∈ removeOwnTicket [aliceP] bobP.id, q.id ≠ bobP.id) ∧
     (∀ game, (findMatch [aliceP] bobP 200 false "g2" 7).2.1 = some game →
       ∃ i, i < (removeOwnTicket [aliceP] bobP.id).length ∧
         |((removeOwnTicket [aliceP] bobP.id).getD i bobP).rating -
           bobP.rating| ≤ 200 ∧
         (∀ j, j < i →
           ¬(|((removeOwnTicket [aliceP] bobP.id).getD j bobP).rating -
             bobP.rating| ≤ 200)) ∧
         (findMatch [aliceP] bobP 200 false "g2" 7).1 =
           (removeOwnTicket [aliceP] bobP.id).eraseIdx i ∧
         game = newGame "g2"
           (if false then bobP
            else (removeOwnTicket [aliceP] bobP.id).getD i bobP)
           (if false then (removeOwnTicket [aliceP] bobP.id).getD i bobP
            else bobP) 7 ∧
         ((game.white = bobP ∧
             game.black = (removeOwnTicket [aliceP] bobP.id).getD i bobP) ∨
          (game.white = (removeOwnTicket [aliceP] bobP.id).getD i bobP ∧
             game.black = bobP))) ∧
     ((findMatch [aliceP] bobP 200 false "g2" 7).2.1 = none →
       (∀ q ∈ removeOwnTicket [aliceP] bobP.id,
         ¬(|q.rating - bobP.rating| ≤ 200)) ∧
       (findMatch [aliceP] bobP 200 false "g2" 7).1 =
         removeOwnTicket [aliceP] bobP.id ++ [bobP])) :=
  ⟨by simp, findMatch_first_fit [aliceP] bobP 200 false "g2" 7 (by simp)⟩

/-- C8: a rejected move — unknown session id, unknown caller, or a
request that fails `Game.makeMove` validation — leaves the session
registry (and hence every session's board, move log, clocks, side to
move and status) unchanged and emits exactly one moveError event scoped
to the acting caller alone. -/
theorem rejected_move_isolated (games : GamesMap) (players : PlayersMap)
    (sid gid : String) (fromRow fromCol toRow toCol : Int) (now : Int) :
    ((lookupGame games gid = none ∨ lookupPlayer players sid = none) →
       handleMakeMove games players sid gid fromRow fromCol toRow toCol now =
         (games, [⟨Scope.toCaller sid, EventKind.moveError⟩])) ∧
    (∀ game, lookupGame games gid = some game →
       (makeMove game fromRow fromCol toRow toCol sid now).1 = none →
       handleMakeMove games players sid gid fromRow fromCol toRow toCol now =
         (games, [⟨Scope.toCaller sid, EventKind.moveError⟩])) := by
  constructor
  · exact handleMakeMove_rejected_unknown games players sid gid fromRow fromCol
      toRow toCol now
  · intro game hg hrej
    exact handleMakeMove_rejected_invalid games players sid gid fromRow fromCol
      toRow toCol now game hg hrej

/-- C8 witness: a move referencing an unknown session id against an empty
registry changes nothing and yields a single caller-scoped moveError. -/
theorem rejected_move_isolated_witness :
    (lookupGame ([] : GamesMap) "g1" = none ∨
      lookupPlayer ([] : PlayersMap) "a" = none) ∧
    handleMakeMove [] [] "a" "g1" 0 0 0 0 0 =
      ([], [⟨Scope.toCaller "a", EventKind.moveError⟩]) :=
  ⟨Or.inl rfl, (rejected_move_isolated [] [] "a" "g1" 0 0 0 0 0).1 (Or.inl rfl)⟩

/-- C9: `currentPlayer` is a single field, so exactly one side is to move
at any instant; it toggles exactly on accepted moves, so after any
request sequence from a fresh game it is white iff the number of
accepted moves is even. -/
theorem sideToMove_parity (id : String) (wh bl : Player) (t0 : Int)
    (reqs : List MoveReq) :
    (applyMoves (newGame id wh bl t0) reqs).1.currentPlayer =
      (if (applyMoves (newGame id wh bl t0) reqs).2 % 2 = 0 then Color.white
       else Color.black) := by
  rw [applyMoves_parity]
  simp [newGame, flipColor]

/-- C10: `acceptDraw` on any registered session id sets the status to
`draw` and broadcasts gameEnded("draw") to the session room, for an
arbitrary caller identity (competitor, spectator or stranger — the
handler never reads it) and an arbitrary prior status (terminal or
not). -/
theorem acceptDraw_unconditional (games : GamesMap) (sid sid2 gid : String)
    (game : Game) (h : lookupGame games gid = some game) :
    handleAcceptDraw games sid gid =
      (updateGame games gid { game with status := Status.draw },
       [⟨Scope.toRoom gid, EventKind.gameEnded "draw" Status.draw⟩]) ∧
    lookupGame (handleAcceptDraw games sid gid).1 gid =
      some { game with status := Status.draw } ∧
    handleAcceptDraw games sid gid = handleAcceptDraw games sid2 gid := by
  unfold handleAcceptDraw
  rw [h]
  exact ⟨rfl, lookupGame_update games gid game _ h, rfl⟩

/-- C10 witness: a stranger's acceptDraw on a session that already ended
by resignation still flips it to `draw` and broadcasts to the room. -/
theorem acceptDraw_unconditional_witness :
    lookupGame [("g1", resignedGame)] "g1" = some resignedGame ∧
    (handleAcceptDraw [("g1", resignedGame)] "stranger" "g1" =
       (updateGame [("g1", resignedGame)] "g1"
         { resignedGame with status := Status.draw },
        [⟨Scope.toRoom "g1", EventKind.gameEnded "draw" Status.draw⟩]) ∧
     lookupGame (handleAcceptDraw [("g1", resignedGame)] "stranger" "g1").1 "g1" =
       some { resignedGame with status := Status.draw } ∧
     handleAcceptDraw [("g1", resignedGame)] "stranger" "g1" =
       handleAcceptDraw [("g1", resignedGame)] "b" "g1") :=
  ⟨by decide, acceptDraw_unconditional [("g1", resignedGame)] "stranger" "b" "g1"
    resignedGame (by decide)⟩

end ChessServer
